import Mathlib

/-!
# Verification of the real-time traffic-sign-recognition pipeline

Shallow embedding of `yolov5_local/realtime_tsr.py`: the detection worker
thread (`RealTimeDetectThread`: preprocessing dispatcher, main pop/infer
loop, stop/sentinel protocol, queue drain) and the UI-side pipeline
(`TrafficSignUI`: open-video startup handshake, playback tick,
drop-on-full frame queue, play/pause toggle).

Frames are modelled as pixel buffers (`List ℕ`); external OpenCV / torch
operations (resize, the five filters, inference) are supplied by an
environment `Env` of abstract functions, with fallible operations
returning `Except`.  Wall-clock instants are rationals supplied
explicitly to each call, mirroring `time.time()`.
-/

namespace RTSR

/-- Rational subtraction in an executable normal form (the library's
subtraction is `irreducible`); `qsub_eq_sub` below proves it is exactly
`a - b`. -/
def qsub (a b : ℚ) : ℚ :=
  mkRat (a.num * b.den - b.num * a.den) (a.den * b.den)

/-- Rational division in an executable normal form; `qdiv_eq_div` below
proves it is exactly `a / b`. -/
def qdiv (a b : ℚ) : ℚ :=
  Rat.divInt (a.num * b.den) (a.den * b.num)

/-- A raw video frame: an immutable pixel buffer.  `frame.copy()` in the
source yields a pixel-identical buffer, hence is the identity here. -/
abbrev Frame := List ℕ

/-- One detection record: label, confidence, bounding box, as extracted
from `results.pred[0]` in `RealTimeDetectThread.run`. -/
structure Detection where
  label : String
  confidence : ℚ
  box : ℤ × ℤ × ℤ × ℤ
deriving DecidableEq

/-- A preprocessing method identifier, the fixed enumeration accepted by
`RealTimeDetectThread._preprocess_frame`. -/
inductive Method where
  | none
  | clahe
  | histeq
  | sharpen
  | denoise
  | contrast
deriving DecidableEq

/-- Display name of a method, used in error messages. -/
def Method.mname : Method → String
  | .none => "none"
  | .clahe => "clahe"
  | .histeq => "histeq"
  | .sharpen => "sharpen"
  | .denoise => "denoise"
  | .contrast => "contrast"

/-- An item travelling through the frame queue: a real frame, or the
`None` sentinel enqueued by `stop()` to unblock a pending `get`. -/
inductive QItem where
  | frame (f : Frame)
  | sentinel
deriving DecidableEq

/-- A signal emitted by the worker thread to the UI thread:
`processed_frame`, `error_occurred` or `detection_log`. -/
inductive Signal where
  | processedFrame (f : Frame)
  | errorOccurred (msg : String)
  | detectionLog (dets : List Detection)
deriving DecidableEq

/-- Mutable state of `RealTimeDetectThread` (fields set in `__init__`). -/
structure ThreadState where
  running : Bool
  preprocess_methods : List Method
  last_frame : Option Frame
  last_processed_time : ℚ
  min_interval : ℚ
  frame_buffer : List Frame
  buffer_size : ℕ
  alpha : ℚ
deriving DecidableEq

/-- `RealTimeDetectThread.__init__`: `preprocess_methods or ['none']`
(an absent/empty argument falls back to `['none']`), running flag true,
empty buffer of capacity 2, 1/15 s minimum interval, blend weight 0.8. -/
def initThread (pm : List Method) : ThreadState :=
  { running := true
    preprocess_methods := if pm = [] then [Method.none] else pm
    last_frame := Option.none
    last_processed_time := 0
    min_interval := mkRat 1 15
    frame_buffer := []
    buffer_size := 2
    alpha := mkRat 8 10 }

/-- The external collaborators (OpenCV, skimage, torch hub model):
model loading, inference (returning the rendered frame and the detection
list), the down/up resizing pair, the five filters (each may raise), and
the `cv2.addWeighted` blend used for temporal smoothing. -/
structure Env where
  load : Except String Unit
  infer : Frame → Except String (Frame × List Detection)
  resizeDown : Frame → Frame
  resizeUp : Frame → Frame → Frame
  clahe : Frame → Except String Frame
  histeq : Frame → Except String Frame
  sharpen : Frame → Except String Frame
  denoise : Frame → Except String Frame
  contrast : Frame → Except String Frame
  addWeighted : ℚ → Frame → Frame → Frame

/-- Error message for a fatal model-load failure (the message built in
`run` before the early `return`). -/
def loadErrMsg (e : String) : String :=
  "detect thread: model load failed: " ++ e

/-- Error message for a per-frame inference failure. -/
def inferErrMsg (e : String) : String :=
  "detect thread: inference error: " ++ e

/-- Error message for a single failing preprocessing method. -/
def filterErrMsg (m : Method) (e : String) : String :=
  "preprocess method " ++ m.mname ++ " failed: " ++ e

/-- One arm of the `if method == ...` chain in `_preprocess_frame`.
`'none'` matches no arm, leaving the buffer untouched. -/
def applyOne (env : Env) (m : Method) (img : Frame) : Except String Frame :=
  match m with
  | .none => .ok img
  | .clahe => env.clahe img
  | .histeq => env.histeq img
  | .sharpen => env.sharpen img
  | .denoise => env.denoise img
  | .contrast => env.contrast img

/-- The `for method in self.preprocess_methods` loop: each method
transforms the working buffer; on an exception the error is recorded and
the loop continues with the buffer unmodified by that method. -/
def applyChain (env : Env) : List Method → Frame → Frame × List String
  | [], img => (img, [])
  | m :: ms, img =>
    match applyOne env m img with
    | .ok img2 => applyChain env ms img2
    | .error e =>
      let r := applyChain env ms img
      (r.1, filterErrMsg m e :: r.2)

/-- The full (non-throttled, non-pass-through) preprocessing pipeline of
one frame: downscale, run the filter chain, upscale back to the original
dimensions.  (Errors of the chain are dropped here; `preprocess_frame`
keeps them.) -/
def fullProcessed (env : Env) (ms : List Method) (f : Frame) : Frame :=
  env.resizeUp f (applyChain env ms (env.resizeDown f)).1

/-- The rolling frame buffer after a full preprocessing step: append the
newly processed frame, then `pop(0)` once if the length exceeds
`buffer_size`. -/
def pfBuf (env : Env) (st : ThreadState) (f : Frame) : List Frame :=
  let b := st.frame_buffer ++ [fullProcessed env st.preprocess_methods f]
  if b.length > st.buffer_size then b.tail else b

/-- The frame returned by a full preprocessing step: the processed frame,
blended with the previous buffered frame when the buffer holds more than
one. -/
def pfOut (env : Env) (st : ThreadState) (f : Frame) : Frame :=
  let p2 := fullProcessed env st.preprocess_methods f
  let buf := pfBuf env st f
  if buf.length > 1 then env.addWeighted st.alpha p2 (buf.getD (buf.length - 2) p2)
  else p2

/-- `RealTimeDetectThread._preprocess_frame(frame)` at wall-clock `now`:
returns the preprocessed frame, the filter error messages emitted, and
the updated thread state.  Pass-through when `'none'` is selected or the
method list is empty; returns the latest buffered frame (or the raw
copy) when throttled; otherwise runs the chain at reduced resolution,
updates the two-slot rolling buffer and timestamp, and blends the output
with the previous buffered frame. -/
def preprocess_frame (env : Env) (st : ThreadState) (frame : Frame) (now : ℚ) :
    Frame × List String × ThreadState :=
  if Method.none ∈ st.preprocess_methods ∨ st.preprocess_methods = [] then
    (frame, [], st)
  else
    let processed := frame
    if qsub now st.last_processed_time < st.min_interval then
      match st.frame_buffer.getLast? with
      | some b => (b, [], st)
      | Option.none => (processed, [], st)
    else
      let small := env.resizeDown processed
      let chained := applyChain env st.preprocess_methods small
      let processed2 := env.resizeUp processed chained.1
      let buf0 := st.frame_buffer ++ [processed2]
      let buf := if buf0.length > st.buffer_size then buf0.tail else buf0
      let out :=
        if buf.length > 1 then
          env.addWeighted st.alpha processed2 (buf.getD (buf.length - 2) processed2)
        else processed2
      (out, chained.2,
        { st with frame_buffer := buf, last_processed_time := now })

/-- The body of the worker loop for one real frame: preprocess (emitting
any filter errors), then infer; on success emit `detection_log` followed
by `processed_frame`, on failure emit a single inference error. -/
def processFrame (env : Env) (st : ThreadState) (f : Frame) (now : ℚ) :
    List Signal × ThreadState :=
  let pp := preprocess_frame env st f now
  let psigs := pp.2.1.map Signal.errorOccurred
  match env.infer pp.1 with
  | .error e => (psigs ++ [Signal.errorOccurred (inferErrMsg e)], pp.2.2)
  | .ok rd => (psigs ++ [Signal.detectionLog rd.2, Signal.processedFrame rd.1], pp.2.2)

/-- Outcome of (a segment of) the worker's main loop: signals emitted,
final thread state, items left in the queue, whether the loop exited
(`break` on sentinel, or the running-flag check failed) as opposed to
blocking forever on an empty queue, and the number of frames processed. -/
structure RunOutcome where
  signals : List Signal
  finalState : ThreadState
  leftover : List QItem
  exited : Bool
  iters : ℕ
deriving DecidableEq

/-- The `while self._running` loop of `RealTimeDetectThread.run` over the
current queue contents: check the flag, pop the head, break on the
sentinel, otherwise process the frame and continue.  An empty queue with
the flag still set means the loop keeps polling (`queue.Empty` →
`continue`); that is recorded as `exited := false`. -/
def runLoop (env : Env) : ThreadState → List QItem → List ℚ → RunOutcome
  | st, q, ts =>
    if st.running then
      match q with
      | [] => ⟨[], st, [], false, 0⟩
      | QItem.sentinel :: rest => ⟨[], st, rest, true, 0⟩
      | QItem.frame f :: rest =>
        let ps := processFrame env st f (ts.headD 0)
        let o := runLoop env ps.2 rest ts.tail
        ⟨ps.1 ++ o.signals, o.finalState, o.leftover, o.exited, o.iters + 1⟩
    else ⟨[], st, q, true, 0⟩

/-- The `while not self.frame_queue.empty(): get()` drain executed after
the main loop exits. -/
def drain : List QItem → List QItem
  | [] => []
  | _ :: rest => drain rest

/-- `RealTimeDetectThread.run`: load the model (a failure emits one fatal
error signal and returns at once, popping nothing), then run the main
loop and, once it exits, drain the queue. -/
def run (env : Env) (st : ThreadState) (q : List QItem) (ts : List ℚ) : RunOutcome :=
  match env.load with
  | .error e => ⟨[Signal.errorOccurred (loadErrMsg e)], st, q, true, 0⟩
  | .ok _ =>
    let o := runLoop env st q ts
    if o.exited then { o with leftover := drain o.leftover } else o

/-- Resumption of the worker when it was already inside `get(timeout)`
at the moment `stop()` took effect: the in-flight pop returns `popped`
(`Option.none` models the `queue.Empty` timeout), the body handles it
(continue / break / process one frame), and the loop then re-checks the
running flag. -/
def midPopResume (env : Env) (st : ThreadState) (popped : Option QItem)
    (q : List QItem) (ts : List ℚ) (now : ℚ) : RunOutcome :=
  match popped with
  | Option.none => runLoop env st q ts
  | some QItem.sentinel => ⟨[], st, q, true, 0⟩
  | some (QItem.frame f) =>
    let ps := processFrame env st f now
    let o := runLoop env ps.2 q ts
    ⟨ps.1 ++ o.signals, o.finalState, o.leftover, o.exited, o.iters + 1⟩

/-- Non-blocking enqueue with capacity `cap`: `put_nowait` wrapped in a
`try/except queue.Full` — appends at the tail when below capacity,
silently drops the new item (returning `false`) when full. -/
def pushDrop (cap : ℕ) (q : List QItem) (x : QItem) : List QItem × Bool :=
  if q.length < cap then (q ++ [x], true) else (q, false)

/-- `RealTimeDetectThread.stop()`: clear the running flag and
`put_nowait(None)` into the capacity-5 queue (dropped if full). -/
def stop (st : ThreadState) (q : List QItem) : ThreadState × List QItem :=
  ({ st with running := false }, (pushDrop 5 q QItem.sentinel).1)

/-- `stop()` called `n` times in a row. -/
def stopN : ℕ → ThreadState × List QItem → ThreadState × List QItem
  | 0, p => p
  | n + 1, p => stopN n (stop p.1 p.2)

/-- Number of `processed_frame` signals in a signal list. -/
def countProcessed (sigs : List Signal) : ℕ :=
  (sigs.filter fun s => match s with
    | Signal.processedFrame _ => true
    | _ => false).length

/-- Number of `error_occurred` signals in a signal list. -/
def countErrorSigs (sigs : List Signal) : ℕ :=
  (sigs.filter fun s => match s with
    | Signal.errorOccurred _ => true
    | _ => false).length

/-- The payload of the first `processed_frame` signal, if any. -/
def firstProcessed : List Signal → Option Frame
  | [] => Option.none
  | Signal.processedFrame f :: _ => some f
  | _ :: rest => firstProcessed rest

/-! ## UI side: `TrafficSignUI` -/

/-- A `cv2.VideoCapture`: the underlying frame sequence, the current
read position, and the frame rate the container reports. -/
structure Cam where
  frames : List Frame
  pos : ℕ
  reportedFps : ℚ
deriving DecidableEq

/-- `cap.read()`: the frame at the current position (advancing it), or
failure at end of stream. -/
def Cam.read (c : Cam) : Option Frame × Cam :=
  match c.frames[c.pos]? with
  | some f => (some f, { c with pos := c.pos + 1 })
  | Option.none => (Option.none, c)

/-- `self.fps = self.orig_cam.get(cv2.CAP_PROP_FPS) or 30`: Python `or`
replaces only a falsy (zero) report by 30. -/
def fpsOf (reported : ℚ) : ℚ :=
  if reported = 0 then 30 else reported

/-- Floor of a rational as an integer (via Euclidean division by the
positive denominator). -/
def ratFloor (x : ℚ) : ℤ :=
  Int.ediv x.num (x.den : ℤ)

/-- Python `int()` on a rational: truncation toward zero. -/
def pyInt (x : ℚ) : ℤ :=
  if 0 ≤ x then ratFloor x else -Int.ediv (-x.num) (x.den : ℤ)

/-- State of the `TrafficSignUI` main window relevant to the pipeline:
video source, playback timer, frame queue, the startup-handshake fields
`waiting_start` / `first_frame`, the two display labels, and the history
of (raw, rendered) pairs displayed simultaneously. -/
structure UIState where
  orig_cam : Option Cam
  timerActive : Bool
  timerPeriodMs : Option ℤ
  fps : ℚ
  total_frames : ℕ
  frame_queue : List QItem
  waiting_start : Bool
  first_frame : Option Frame
  orig_label : Option Frame
  proc_label : Option Frame
  displayedPairs : List (Frame × Frame)
  workerStopRequested : Bool
deriving DecidableEq

/-- `TrafficSignUI.__init__`: no source, stopped timer, fps 30, empty
queue, not waiting. -/
def initUI : UIState :=
  { orig_cam := Option.none
    timerActive := false
    timerPeriodMs := Option.none
    fps := 30
    total_frames := 0
    frame_queue := []
    waiting_start := false
    first_frame := Option.none
    orig_label := Option.none
    proc_label := Option.none
    displayedPairs := []
    workerStopRequested := false }

/-- `TrafficSignUI._open_video` on a successfully opened source: stop any
previous playback, record fps (`reported or 30`) and total frames, create
the fresh capacity-5 queue and worker, read frame 0; on read failure
return early; otherwise retain frame 0, enter the waiting state, push
frame 0 into the queue, and clear both labels.  The periodic timer is
not started here. -/
def uiOpen (st : UIState) (frames : List Frame) (reported : ℚ) : UIState :=
  let st1 := if st.orig_cam.isSome
    then { st with timerActive := false, orig_cam := Option.none }
    else st
  let cam : Cam := ⟨frames, 0, reported⟩
  let st2 := { st1 with
    orig_cam := some cam
    total_frames := frames.length
    fps := fpsOf reported
    frame_queue := ([] : List QItem) }
  match cam.read with
  | (Option.none, _) => st2
  | (some f0, cam2) =>
    { st2 with
      orig_cam := some cam2
      first_frame := some f0
      waiting_start := true
      frame_queue := (pushDrop 5 [] (QItem.frame f0)).1
      orig_label := Option.none
      proc_label := Option.none }

/-- `TrafficSignUI._on_processed_frame`: while `waiting_start`, display
the retained first frame and the rendered result together, leave the
waiting state and start the periodic timer with period
`int(1000 / fps)` ms; afterwards only refresh the right-hand label. -/
def uiProcessed (st : UIState) (r : Frame) : UIState :=
  if st.waiting_start then
    let f0 := st.first_frame.getD []
    { st with
      orig_label := some f0
      proc_label := some r
      displayedPairs := st.displayedPairs ++ [(f0, r)]
      waiting_start := false
      timerActive := true
      timerPeriodMs := some (pyInt (qdiv 1000 st.fps)) }
  else
    { st with proc_label := some r }

/-- `TrafficSignUI._update_frame`, invoked only by the running timer:
read the next frame; at end of stream stop the timer and request worker
stop; otherwise display it on the left and push a copy into the
capacity-5 queue, dropping it silently when the queue is full. -/
def uiTick (st : UIState) : UIState :=
  if st.timerActive = false then st
  else
    match st.orig_cam with
    | Option.none => st
    | some cam =>
      match cam.read with
      | (Option.none, cam2) =>
        { st with orig_cam := some cam2, timerActive := false,
                  workerStopRequested := true }
      | (some f, cam2) =>
        { st with orig_cam := some cam2, orig_label := some f,
                  frame_queue := (pushDrop 5 st.frame_queue (QItem.frame f)).1 }

/-- `TrafficSignUI._toggle_play` (the play/pause button or Space): with a
source open, stop the timer if running, else start it with period
`int(1000 / fps)` ms. -/
def uiToggle (st : UIState) : UIState :=
  match st.orig_cam with
  | Option.none => st
  | some _ =>
    if st.timerActive then { st with timerActive := false }
    else { st with timerActive := true,
                   timerPeriodMs := some (pyInt (qdiv 1000 st.fps)) }

/-- An event hitting the UI thread's event loop. -/
inductive UIEvent where
  | openVid (frames : List Frame) (reported : ℚ)
  | processed (r : Frame)
  | toggleBtn
  | tick
deriving DecidableEq

/-- Dispatch one UI event to its handler. -/
def uiStep (st : UIState) : UIEvent → UIState
  | .openVid frames reported => uiOpen st frames reported
  | .processed r => uiProcessed st r
  | .toggleBtn => uiToggle st
  | .tick => uiTick st

/-- Run a sequence of UI events from a state. -/
def uiRun (st : UIState) (evs : List UIEvent) : UIState :=
  evs.foldl uiStep st

/-- Whether an event is not the play/pause toggle. -/
def notToggle : UIEvent → Bool
  | .toggleBtn => false
  | _ => true

/-- Whether, along the run of a trace from `st`, every play/pause toggle
fires from a state that is not awaiting the first result — i.e. the user
never presses play/pause during the startup wait.  Toggles outside the
wait (e.g. pausing and resuming while streaming) are allowed. -/
def noToggleWhileWaiting : UIState → List UIEvent → Bool
  | _, [] => true
  | st, ev :: rest =>
    (notToggle ev || !st.waiting_start) &&
      noToggleWhileWaiting (uiStep st ev) rest

/-- Startup-handshake invariant: the periodic timer is stopped while the
first result is still awaited, and without a source neither the timer
runs nor is the handshake pending. -/
def uiInv (st : UIState) : Prop :=
  (st.waiting_start = true → st.timerActive = false) ∧
  (st.orig_cam = Option.none → st.timerActive = false ∧ st.waiting_start = false)

/-! ## Concrete fixtures used to exercise the model -/

/-- A concrete environment: loading succeeds, every filter succeeds, and
inference fails exactly on the frame `[3]` (the injected per-frame
failure), rendering any other frame as itself with no detections. -/
def demoEnv : Env :=
  { load := .ok ()
    infer := fun f => if f = [3] then .error "boom" else .ok (f, [])
    resizeDown := id
    resizeUp := fun _ s => s
    clahe := fun f => .ok f
    histeq := fun f => .ok f
    sharpen := fun f => .ok f
    denoise := fun f => .ok f
    contrast := fun f => .ok f
    addWeighted := fun _ a _ => a }

/-- A five-frame input queue, frames numbered 1..5. -/
def demoQ : List QItem :=
  [QItem.frame [1], QItem.frame [2], QItem.frame [3], QItem.frame [4], QItem.frame [5]]

/-- `demoEnv` with a failing model load (missing weights). -/
def badEnv : Env :=
  { demoEnv with load := .error "no weights" }

/-- `demoEnv` whose CLAHE filter prepends a pixel, making filter output
distinguishable from its input. -/
def clEnv : Env :=
  { demoEnv with clahe := fun f => .ok (0 :: f) }

/-- A worker state configured with the single filter `clahe`. -/
def stC : ThreadState := initThread [Method.clahe]

/-- `demoEnv` whose CLAHE filter raises, for exercising the
failure-in-one-filter path. -/
def failEnv : Env :=
  { demoEnv with clahe := fun _ => .error "cv err" }

/-! ## Helper lemmas -/

theorem qsub_eq_sub (a b : ℚ) : qsub a b = a - b :=
  (Rat.sub_def' a b).symm

theorem qdiv_eq_div (a b : ℚ) : qdiv a b = a / b :=
  (Rat.div_def' a b).symm

theorem drain_eq_nil (q : List QItem) : drain q = [] := by
  induction q with
  | nil => rfl
  | cons x rest ih => simpa [drain] using ih

theorem preprocess_frame_running (env : Env) (st : ThreadState) (f : Frame) (now : ℚ) :
    ((preprocess_frame env st f now).2.2).running = st.running := by
  unfold preprocess_frame
  split
  · rfl
  · split
    · split <;> rfl
    · rfl

theorem processFrame_running (env : Env) (st : ThreadState) (f : Frame) (now : ℚ) :
    ((processFrame env st f now).2).running = st.running := by
  unfold processFrame
  cases h : env.infer (preprocess_frame env st f now).1 <;>
    simp [h, preprocess_frame_running]

theorem runLoop_not_running (env : Env) {st : ThreadState} (q : List QItem) (ts : List ℚ)
    (h : st.running = false) : runLoop env st q ts = ⟨[], st, q, true, 0⟩ := by
  rw [runLoop.eq_def]
  simp [h]

theorem runLoop_nil (env : Env) {st : ThreadState} (ts : List ℚ)
    (h : st.running = true) : runLoop env st [] ts = ⟨[], st, [], false, 0⟩ := by
  rw [runLoop.eq_def]
  simp [h]

theorem runLoop_sentinel (env : Env) {st : ThreadState} (rest : List QItem) (ts : List ℚ)
    (h : st.running = true) :
    runLoop env st (QItem.sentinel :: rest) ts = ⟨[], st, rest, true, 0⟩ := by
  rw [runLoop.eq_def]
  simp [h]

theorem runLoop_frame (env : Env) {st : ThreadState} (f : Frame) (rest : List QItem)
    (ts : List ℚ) (h : st.running = true) :
    runLoop env st (QItem.frame f :: rest) ts =
      (let ps := processFrame env st f (ts.headD 0)
       let o := runLoop env ps.2 rest ts.tail
       ⟨ps.1 ++ o.signals, o.finalState, o.leftover, o.exited, o.iters + 1⟩) := by
  conv_lhs => rw [runLoop.eq_def]
  simp [h]

theorem stop_running (st : ThreadState) (q : List QItem) :
    (stop st q).1.running = false := rfl

theorem stopN_succ_running (n : ℕ) (p : ThreadState × List QItem) :
    (stopN (n + 1) p).1.running = false := by
  induction n generalizing p with
  | zero => rfl
  | succ m ih => exact ih (stop p.1 p.2)

theorem firstProcessed_errs (l : List String) (s : List Signal) :
    firstProcessed (l.map Signal.errorOccurred ++ s) = firstProcessed s := by
  induction l with
  | nil => rfl
  | cons m rest ih => simpa [firstProcessed] using ih

theorem preprocess_pass (env : Env) (st : ThreadState) (f : Frame) (now : ℚ)
    (h : Method.none ∈ st.preprocess_methods ∨ st.preprocess_methods = []) :
    preprocess_frame env st f now = (f, [], st) := by
  unfold preprocess_frame
  rw [if_pos h]

theorem preprocess_throttle (env : Env) (st : ThreadState) (f : Frame) (now : ℚ)
    (h1 : ¬(Method.none ∈ st.preprocess_methods ∨ st.preprocess_methods = []))
    (h2 : qsub now st.last_processed_time < st.min_interval) :
    preprocess_frame env st f now = ((st.frame_buffer.getLast?).getD f, [], st) := by
  unfold preprocess_frame
  rw [if_neg h1, if_pos h2]
  cases hb : st.frame_buffer.getLast? <;> simp [hb]

theorem preprocess_full (env : Env) (st : ThreadState) (f : Frame) (now : ℚ)
    (h1 : ¬(Method.none ∈ st.preprocess_methods ∨ st.preprocess_methods = []))
    (h2 : ¬(qsub now st.last_processed_time < st.min_interval)) :
    preprocess_frame env st f now =
      (pfOut env st f, (applyChain env st.preprocess_methods (env.resizeDown f)).2,
        { st with frame_buffer := pfBuf env st f, last_processed_time := now }) := by
  unfold preprocess_frame pfOut pfBuf fullProcessed
  rw [if_neg h1, if_neg h2]

theorem uiInv_init : uiInv initUI := by
  constructor
  · intro h
    simp [initUI] at h
  · intro _
    exact ⟨rfl, rfl⟩

theorem uiOpen_orig_cam_isSome (st : UIState) (frames : List Frame) (reported : ℚ) :
    (uiOpen st frames reported).orig_cam.isSome = true := by
  unfold uiOpen
  cases frames <;> cases hc : st.orig_cam <;> simp [Cam.read, hc]

theorem uiOpen_timerActive (st : UIState) (frames : List Frame) (reported : ℚ) :
    (uiOpen st frames reported).timerActive =
      (if st.orig_cam.isSome then false else st.timerActive) := by
  unfold uiOpen
  cases frames <;> cases hc : st.orig_cam <;> simp [Cam.read, hc]

theorem uiOpen_waiting (st : UIState) (frames : List Frame) (reported : ℚ) :
    (uiOpen st frames reported).waiting_start =
      (if frames.isEmpty then st.waiting_start else true) := by
  unfold uiOpen
  cases frames <;> cases hc : st.orig_cam <;> simp [Cam.read, hc]

theorem uiInv_open (st : UIState) (frames : List Frame) (reported : ℚ) (h : uiInv st) :
    uiInv (uiOpen st frames reported) := by
  obtain ⟨h1, h2⟩ := h
  refine ⟨fun _ => ?_, fun hno => ?_⟩
  · rw [uiOpen_timerActive]
    cases hc : st.orig_cam with
    | none =>
      simp only [hc, Option.isSome_none, Bool.false_eq_true, if_false]
      exact (h2 hc).1
    | some c =>
      simp
  · have hs := uiOpen_orig_cam_isSome st frames reported
    rw [hno] at hs
    simp at hs

theorem uiInv_processed (st : UIState) (r : Frame) (h : uiInv st) :
    uiInv (uiProcessed st r) := by
  unfold uiProcessed
  by_cases hw : st.waiting_start = true
  · rw [if_pos hw]
    refine ⟨fun h2 => ?_, fun hno => ?_⟩
    · simp at h2
    · exact absurd hw (by simp [(h.2 hno).2])
  · rw [if_neg hw]
    exact ⟨fun h2 => h.1 h2, fun hno => h.2 hno⟩

theorem uiInv_tick (st : UIState) (h : uiInv st) : uiInv (uiTick st) := by
  unfold uiTick
  by_cases ht : st.timerActive = false
  · rw [if_pos ht]
    exact h
  · rw [if_neg ht]
    split
    · exact h
    · split
      · exact ⟨fun _ => rfl, fun hno => by simp at hno⟩
      · refine ⟨fun hw => ?_, fun hno => by simp at hno⟩
        exact absurd (h.1 hw) ht

theorem uiInv_toggle (st : UIState) (h : uiInv st) (hw : st.waiting_start = false) :
    uiInv (uiToggle st) := by
  unfold uiToggle
  cases hc : st.orig_cam with
  | none => exact h
  | some c =>
    by_cases ht : st.timerActive = true
    · rw [if_pos ht]
      exact ⟨fun _ => rfl, fun hno => by simp at hno⟩
    · rw [if_neg ht]
      refine ⟨fun hww => ?_, fun hno => by simp at hno⟩
      rw [hw] at hww
      exact absurd hww (by simp)

theorem uiInv_step (st : UIState) (ev : UIEvent) (h : uiInv st)
    (hev : notToggle ev = true ∨ st.waiting_start = false) : uiInv (uiStep st ev) := by
  cases ev with
  | openVid frames reported => exact uiInv_open st frames reported h
  | processed r => exact uiInv_processed st r h
  | toggleBtn =>
    cases hev with
    | inl h2 => simp [notToggle] at h2
    | inr h2 => exact uiInv_toggle st h h2
  | tick => exact uiInv_tick st h

theorem uiInv_run (evs : List UIEvent) : ∀ st : UIState, uiInv st →
    noToggleWhileWaiting st evs = true → uiInv (uiRun st evs) := by
  induction evs with
  | nil =>
    intro st h _
    exact h
  | cons ev rest ih =>
    intro st h htf
    rw [noToggleWhileWaiting, Bool.and_eq_true, Bool.or_eq_true] at htf
    have hev : notToggle ev = true ∨ st.waiting_start = false := by
      rcases htf.1 with h2 | h2
      · exact Or.inl h2
      · exact Or.inr (by simpa using h2)
    show uiInv (uiRun (uiStep st ev) rest)
    exact ih (uiStep st ev) (uiInv_step st ev h hev) htf.2

theorem uiOpen_fps (st : UIState) (frames : List Frame) (reported : ℚ) :
    (uiOpen st frames reported).fps = fpsOf reported := by
  unfold uiOpen
  cases frames <;> simp [Cam.read]

/-! ## Claim theorems -/

/-- C3: a push into the capacity-5 frame queue at capacity drops the
newly pushed (newest) item and leaves the queue unchanged, returning
`false`; below capacity it appends at the tail (preserving arrival
order) and returns `true`.  The caller is never blocked: both cases
return at once with the stated result. -/
theorem push_drop_policy (q : List QItem) (x : QItem) :
    (q.length = 5 → pushDrop 5 q x = (q, false)) ∧
    (q.length < 5 → pushDrop 5 q x = (q ++ [x], true)) := by
  constructor
  · intro h
    simp [pushDrop, h]
  · intro h
    simp [pushDrop, h]

/-- C3 witness: a full queue drops the new frame unchanged; an empty
queue appends it. -/
theorem push_drop_policy_w :
    pushDrop 5 [QItem.frame [1], QItem.frame [2], QItem.frame [3], QItem.frame [4],
        QItem.frame [5]] (QItem.frame [6]) =
      ([QItem.frame [1], QItem.frame [2], QItem.frame [3], QItem.frame [4],
        QItem.frame [5]], false) ∧
    pushDrop 5 [] (QItem.frame [0]) = ([QItem.frame [0]], true) :=
  ⟨(push_drop_policy _ _).1 (by decide), (push_drop_policy _ _).2 (by decide)⟩

/-- C4: with `'none'` selected (or an empty method list) the dispatcher
returns a pixel-identical copy of the input and leaves the thread state
(timestamp and frame buffer) untouched, emitting nothing; since this
holds for every state `st`, the result also does not depend on (read)
the timestamp or the buffer. -/
theorem preprocess_none_identity (env : Env) (st : ThreadState) (f : Frame) (now : ℚ)
    (h : Method.none ∈ st.preprocess_methods ∨ st.preprocess_methods = []) :
    preprocess_frame env st f now = (f, [], st) := by
  unfold preprocess_frame
  rw [if_pos h]

/-- C4 witness: the default configuration `['none']` passes a concrete
frame through unchanged, with a non-trivial buffer and timestamp left
intact. -/
theorem preprocess_none_identity_w :
    preprocess_frame demoEnv
        { initThread [] with frame_buffer := [[7]], last_processed_time := 4 } [3, 1] 4 =
      ([3, 1], [], { initThread [] with frame_buffer := [[7]], last_processed_time := 4 }) :=
  preprocess_none_identity demoEnv _ [3, 1] 4 (by decide)

/-- C5: with a non-`'none'`, non-empty configuration, a call made less
than `min_interval` after the last applied preprocessing skips the
filters and returns the most recently buffered result (or the raw frame
when the buffer is empty) with the state unchanged; consequently two
consecutive such throttled calls with a non-empty buffer return the
same buffered output. -/
theorem preprocess_rate_limit (env : Env) (st : ThreadState) (f g : Frame) (now1 now2 : ℚ)
    (hnone : Method.none ∉ st.preprocess_methods) (hne : st.preprocess_methods ≠ [])
    (hthr1 : now1 - st.last_processed_time < st.min_interval) :
    preprocess_frame env st f now1 = ((st.frame_buffer.getLast?).getD f, [], st) ∧
    (now2 - st.last_processed_time < st.min_interval → st.frame_buffer ≠ [] →
      (preprocess_frame env (preprocess_frame env st f now1).2.2 g now2).1 =
        (preprocess_frame env st f now1).1) := by
  have hcond : ¬(Method.none ∈ st.preprocess_methods ∨ st.preprocess_methods = []) := by
    simp [hnone, hne]
  have throttled : ∀ (x : Frame) (t : ℚ), t - st.last_processed_time < st.min_interval →
      preprocess_frame env st x t = ((st.frame_buffer.getLast?).getD x, [], st) := by
    intro x t ht
    have htq : qsub t st.last_processed_time < st.min_interval := by
      rwa [qsub_eq_sub]
    unfold preprocess_frame
    rw [if_neg hcond, if_pos htq]
    cases hb : st.frame_buffer.getLast? <;> simp [hb]
  refine ⟨throttled f now1 hthr1, ?_⟩
  intro hthr2 hbne
  obtain ⟨b, hb⟩ : ∃ b, st.frame_buffer.getLast? = some b := by
    cases hb : st.frame_buffer.getLast? with
    | none => exact absurd (List.getLast?_eq_none_iff.1 hb) hbne
    | some b => exact ⟨b, rfl⟩
  rw [throttled f now1 hthr1]
  simpa [hb] using congrArg Prod.fst (throttled g now2 hthr2)

/-- C5 witness: with configuration `[clahe]`, a buffered frame `[0, 9]`
and last-processed time 1, two throttled calls at time 1 both return the
buffered frame. -/
theorem preprocess_rate_limit_w :
    preprocess_frame clEnv { stC with frame_buffer := [[0, 9]], last_processed_time := 1 }
        [8] 1 = ([0, 9], [], { stC with frame_buffer := [[0, 9]], last_processed_time := 1 }) ∧
    (preprocess_frame clEnv
        (preprocess_frame clEnv { stC with frame_buffer := [[0, 9]], last_processed_time := 1 }
          [8] 1).2.2 [6] 1).1 =
      (preprocess_frame clEnv { stC with frame_buffer := [[0, 9]], last_processed_time := 1 }
        [8] 1).1 := by
  have h := preprocess_rate_limit clEnv
    { stC with frame_buffer := [[0, 9]], last_processed_time := 1 } [8] [6] 1 1
    (by decide) (by decide) (by rw [← qsub_eq_sub]; decide)
  exact ⟨h.1, h.2 (by rw [← qsub_eq_sub]; decide) (by decide)⟩

/-- C10: the rolling frame buffer never exceeds the buffer size of 2:
(1) any call to the dispatcher preserves `length ≤ 2`; (2) a full
(non-throttled, non-pass-through) preprocessing appends exactly one
frame and evicts the oldest (`pop(0)`) whenever the length would exceed
`buffer_size`; (3) every other path (pass-through or throttled) leaves
the buffer unchanged, so no other path grows it. -/
theorem frame_buffer_bound (env : Env) (st : ThreadState) (f : Frame) (now : ℚ) :
    (st.buffer_size = 2 → st.frame_buffer.length ≤ 2 →
      ((preprocess_frame env st f now).2.2).frame_buffer.length ≤ 2) ∧
    (Method.none ∉ st.preprocess_methods → st.preprocess_methods ≠ [] →
      ¬(now - st.last_processed_time < st.min_interval) →
      ((preprocess_frame env st f now).2.2).frame_buffer =
        (if (st.frame_buffer ++ [fullProcessed env st.preprocess_methods f]).length >
            st.buffer_size
         then (st.frame_buffer ++ [fullProcessed env st.preprocess_methods f]).tail
         else st.frame_buffer ++ [fullProcessed env st.preprocess_methods f])) ∧
    ((Method.none ∈ st.preprocess_methods ∨ st.preprocess_methods = [] ∨
        now - st.last_processed_time < st.min_interval) →
      ((preprocess_frame env st f now).2.2).frame_buffer = st.frame_buffer) := by
  refine ⟨?_, ?_, ?_⟩
  · intro hbs hlen
    by_cases h1 : Method.none ∈ st.preprocess_methods ∨ st.preprocess_methods = []
    · rw [preprocess_pass env st f now h1]
      exact hlen
    · by_cases h2 : qsub now st.last_processed_time < st.min_interval
      · rw [preprocess_throttle env st f now h1 h2]
        exact hlen
      · rw [preprocess_full env st f now h1 h2]
        show (pfBuf env st f).length ≤ 2
        unfold pfBuf
        show (if (st.frame_buffer ++ [fullProcessed env st.preprocess_methods f]).length >
              st.buffer_size
            then (st.frame_buffer ++ [fullProcessed env st.preprocess_methods f]).tail
            else st.frame_buffer ++ [fullProcessed env st.preprocess_methods f]).length ≤ 2
        by_cases h3 : (st.frame_buffer ++
            [fullProcessed env st.preprocess_methods f]).length > st.buffer_size
        · rw [if_pos h3]
          simp only [List.length_tail, List.length_append, List.length_singleton]
          omega
        · rw [if_neg h3]
          simp only [List.length_append, List.length_singleton] at h3 ⊢
          omega
  · intro ha hb hthr
    have h1 : ¬(Method.none ∈ st.preprocess_methods ∨ st.preprocess_methods = []) := by
      simp [ha, hb]
    have h2 : ¬(qsub now st.last_processed_time < st.min_interval) := by
      rwa [qsub_eq_sub]
    rw [preprocess_full env st f now h1 h2]
    rfl
  · intro h
    by_cases h1 : Method.none ∈ st.preprocess_methods ∨ st.preprocess_methods = []
    · rw [preprocess_pass env st f now h1]
    · have hthr : qsub now st.last_processed_time < st.min_interval := by
        rcases h with h | h | h
        · exact absurd (Or.inl h) h1
        · exact absurd (Or.inr h) h1
        · rwa [← qsub_eq_sub] at h
      rw [preprocess_throttle env st f now h1 hthr]

/-- C10 witness: a full preprocessing step from an empty buffer yields a
one-frame buffer; a second full step from a buffer already holding two
frames evicts the oldest; a throttled call leaves the buffer alone. -/
theorem frame_buffer_bound_w :
    ((preprocess_frame clEnv stC [9] 1).2.2).frame_buffer.length ≤ 2 ∧
    ((preprocess_frame clEnv stC [9] 1).2.2).frame_buffer = [[0, 9]] ∧
    ((preprocess_frame clEnv
        { stC with frame_buffer := [[1], [2]], last_processed_time := 0 } [9] 1).2.2).frame_buffer
      = [[2], [0, 9]] ∧
    ((preprocess_frame clEnv
        { stC with frame_buffer := [[5]], last_processed_time := 1 } [9] 1).2.2).frame_buffer
      = [[5]] := by
  refine ⟨(frame_buffer_bound clEnv stC [9] 1).1 rfl (by decide), ?_, ?_, ?_⟩
  · rw [(frame_buffer_bound clEnv stC [9] 1).2.1 (by decide) (by decide)
      (by rw [← qsub_eq_sub]; decide)]
    decide
  · rw [(frame_buffer_bound clEnv
        { stC with frame_buffer := [[1], [2]], last_processed_time := 0 } [9] 1).2.1
      (by decide) (by decide) (by rw [← qsub_eq_sub]; decide)]
    decide
  · exact (frame_buffer_bound clEnv
      { stC with frame_buffer := [[5]], last_processed_time := 1 } [9] 1).2.2
      (Or.inr (Or.inr (by rw [← qsub_eq_sub]; decide)))

/-- C2: `stop()` clears the running flag no matter how often it is
called; with an empty queue (the only situation in which a pop can be
blocked) it enqueues the sentinel, and more generally whenever the
queue is below capacity; a stopped worker's loop exits at once without
popping anything; a worker that was already inside a pop when `stop()`
took effect handles at most that one in-flight item — at most one
frame's processing — and then exits at the next flag check; and calling
`stop()` n+1 times produces the same loop behaviour (signals, exit,
iteration count, queue after draining) as calling it once. -/
theorem stop_terminates_idempotent (env : Env) (st : ThreadState) (q : List QItem)
    (ts : List ℚ) (popped : Option QItem) (now : ℚ) (n : ℕ) :
    (stop st q).1.running = false ∧
    (stopN (n + 1) (st, q)).1.running = false ∧
    (q = [] → (stop st q).2 = [QItem.sentinel]) ∧
    (q.length < 5 → (stop st q).2 = q ++ [QItem.sentinel]) ∧
    (st.running = false → runLoop env st q ts = ⟨[], st, q, true, 0⟩) ∧
    (st.running = false →
      (midPopResume env st popped q ts now).exited = true ∧
      (midPopResume env st popped q ts now).iters ≤ 1) ∧
    ((runLoop env (stopN (n + 1) (st, q)).1 (stopN (n + 1) (st, q)).2 ts).signals =
        (runLoop env (stop st q).1 (stop st q).2 ts).signals ∧
      (runLoop env (stopN (n + 1) (st, q)).1 (stopN (n + 1) (st, q)).2 ts).exited =
        (runLoop env (stop st q).1 (stop st q).2 ts).exited ∧
      (runLoop env (stopN (n + 1) (st, q)).1 (stopN (n + 1) (st, q)).2 ts).iters =
        (runLoop env (stop st q).1 (stop st q).2 ts).iters ∧
      drain (runLoop env (stopN (n + 1) (st, q)).1 (stopN (n + 1) (st, q)).2 ts).leftover =
        drain (runLoop env (stop st q).1 (stop st q).2 ts).leftover) := by
  refine ⟨rfl, stopN_succ_running n (st, q), ?_, ?_, ?_, ?_, ?_⟩
  · intro h
    subst h
    rfl
  · intro h
    simp [stop, pushDrop, h]
  · intro h
    exact runLoop_not_running env q ts h
  · intro h
    cases popped with
    | none =>
      simp [midPopResume, runLoop_not_running env q ts h]
    | some item =>
      cases item with
      | sentinel => exact ⟨rfl, Nat.zero_le 1⟩
      | frame f =>
        have hr : ((processFrame env st f now).2).running = false := by
          rw [processFrame_running]
          exact h
        simp [midPopResume, runLoop_not_running env q ts hr]
  · rw [runLoop_not_running env (stopN (n + 1) (st, q)).2 ts (stopN_succ_running n (st, q)),
      runLoop_not_running env (stop st q).2 ts (stop_running st q)]
    simp [drain_eq_nil]

/-- C2 witness: stopping a fresh worker over an empty queue clears the
flag and leaves exactly the sentinel; a stopped worker's loop exits with
the queue untouched and zero pops; a stopped worker resuming from an
in-flight pop that returned a frame processes at most that frame. -/
theorem stop_terminates_idempotent_w :
    (stop (initThread []) []).1.running = false ∧
    (stop (initThread []) []).2 = [QItem.sentinel] ∧
    runLoop demoEnv { initThread [] with running := false } [QItem.frame [1]] [] =
      ⟨[], { initThread [] with running := false }, [QItem.frame [1]], true, 0⟩ ∧
    (midPopResume demoEnv { initThread [] with running := false }
        (some (QItem.frame [2])) [] [] 0).exited = true ∧
    (midPopResume demoEnv { initThread [] with running := false }
        (some (QItem.frame [2])) [] [] 0).iters ≤ 1 := by
  have h1 := stop_terminates_idempotent demoEnv (initThread []) [] []
    (some (QItem.frame [2])) 0 0
  have h2 := stop_terminates_idempotent demoEnv { initThread [] with running := false }
    [QItem.frame [1]] [] (some (QItem.frame [2])) 0 0
  have h3 := stop_terminates_idempotent demoEnv { initThread [] with running := false }
    [] [] (some (QItem.frame [2])) 0 0
  exact ⟨h1.1, h1.2.2.1 rfl, h2.2.2.2.2.1 rfl,
    (h3.2.2.2.2.2.1 rfl).1, (h3.2.2.2.2.2.1 rfl).2⟩

/-- C6: if the model fails to load, `run` emits exactly one (fatal)
error signal and terminates at once: no frame is popped or processed
(zero iterations, queue untouched) and no further signal of any kind
follows the single load-failure error. -/
theorem load_failure_fatal (env : Env) (st : ThreadState) (q : List QItem) (ts : List ℚ)
    (e : String) (h : env.load = .error e) :
    run env st q ts = ⟨[Signal.errorOccurred (loadErrMsg e)], st, q, true, 0⟩ := by
  unfold run
  rw [h]

/-- C6 witness: the environment with missing weights produces exactly
the single fatal error signal over a five-frame queue. -/
theorem load_failure_fatal_w :
    run badEnv (initThread []) demoQ [] =
      ⟨[Signal.errorOccurred (loadErrMsg "no weights")], initThread [], demoQ, true, 0⟩ :=
  load_failure_fatal badEnv (initThread []) demoQ [] "no weights" rfl

/-- C7: per-frame failures are non-fatal.  (1) When inference raises on
a frame, the body emits exactly one inference-error signal for it (after
any filter errors) and no result signals; (2) the loop always continues
to the remaining frames after a frame's body, whatever it emitted;
(3) a failing filter reports its error and the remaining filters are
still applied to the unmodified-so-far buffer; (4) in the concrete
5-frame run whose inference fails exactly on frame 3, four results and
exactly one error signal are produced. -/
theorem per_frame_errors_nonfatal :
    (∀ (env : Env) (st : ThreadState) (f : Frame) (now : ℚ) (e : String),
      env.infer (preprocess_frame env st f now).1 = .error e →
      processFrame env st f now =
        ((preprocess_frame env st f now).2.1.map Signal.errorOccurred ++
          [Signal.errorOccurred (inferErrMsg e)], (preprocess_frame env st f now).2.2)) ∧
    (∀ (env : Env) (st : ThreadState) (f : Frame) (rest : List QItem) (ts : List ℚ),
      st.running = true →
      runLoop env st (QItem.frame f :: rest) ts =
        (let ps := processFrame env st f (ts.headD 0)
         let o := runLoop env ps.2 rest ts.tail
         ⟨ps.1 ++ o.signals, o.finalState, o.leftover, o.exited, o.iters + 1⟩)) ∧
    (∀ (env : Env) (m : Method) (ms : List Method) (img : Frame) (e : String),
      applyOne env m img = .error e →
      applyChain env (m :: ms) img =
        ((applyChain env ms img).1, filterErrMsg m e :: (applyChain env ms img).2)) ∧
    (countProcessed (runLoop demoEnv (initThread [Method.none]) demoQ []).signals = 4 ∧
      countErrorSigs (runLoop demoEnv (initThread [Method.none]) demoQ []).signals = 1) := by
  refine ⟨?_, ?_, ?_, by decide, by decide⟩
  · intro env st f now e h
    simp only [processFrame]
    rw [h]
  · intro env st f rest ts h
    exact runLoop_frame env f rest ts h
  · intro env m ms img e h
    simp [applyChain, h]

/-- C7 witness: inference failing on frame `[3]` yields exactly one
error signal for that frame and no result; a failing CLAHE filter still
lets the rest of the chain run on the unmodified buffer; the concrete
5-frame run produces results for the four good frames and one error. -/
theorem per_frame_errors_nonfatal_w :
    processFrame demoEnv (initThread [Method.none]) [3] 0 =
      ([Signal.errorOccurred (inferErrMsg "boom")], initThread [Method.none]) ∧
    applyChain failEnv [Method.clahe, Method.contrast] [7] =
      ([7], [filterErrMsg Method.clahe "cv err"]) ∧
    countProcessed (runLoop demoEnv (initThread [Method.none]) demoQ []).signals = 4 ∧
    countErrorSigs (runLoop demoEnv (initThread [Method.none]) demoQ []).signals = 1 := by
  obtain ⟨h1, _, h3, h4⟩ := per_frame_errors_nonfatal
  refine ⟨?_, ?_, h4.1, h4.2⟩
  · rw [h1 demoEnv (initThread [Method.none]) [3] 0 "boom" rfl]
    decide
  · rw [h3 failEnv Method.clahe [Method.contrast] [7] "cv err" rfl]
    decide

/-- C8: draining discards every queued item, and whenever the model
loaded and the main loop exits (flag cleared or sentinel received), the
worker's final queue is empty. -/
theorem exit_drains_queue (env : Env) (st : ThreadState) (q : List QItem) (ts : List ℚ) :
    (∀ q2 : List QItem, drain q2 = []) ∧
    (env.load = .ok () → (runLoop env st q ts).exited = true →
      (run env st q ts).leftover = []) := by
  refine ⟨drain_eq_nil, ?_⟩
  intro hl hx
  unfold run
  rw [hl]
  simp [hx, drain_eq_nil]

/-- C8 witness: a run that exits on the sentinel leaves behind an empty
queue even though an undelivered frame was still queued after the
sentinel. -/
theorem exit_drains_queue_w :
    (run demoEnv (initThread [Method.none])
      [QItem.frame [1], QItem.sentinel, QItem.frame [2]] []).leftover = [] :=
  (exit_drains_queue demoEnv (initThread [Method.none])
    [QItem.frame [1], QItem.sentinel, QItem.frame [2]] []).2 rfl (by decide)

/-- C1 counterexample: the claim states the periodic timer is never
running while the synchronizer still awaits the first result, but after
opening a source the play/pause control (`_toggle_play`, bound to the
button and Space) starts the timer although `waiting_start` is still
set: in the trace open-then-toggle the final state is awaiting the first
result with the timer running. -/
theorem startup_sync_toggle_cex :
    (uiRun initUI [UIEvent.openVid [[5]] 30, UIEvent.toggleBtn]).waiting_start = true ∧
    (uiRun initUI [UIEvent.openVid [[5]] 30, UIEvent.toggleBtn]).timerActive = true :=
  ⟨by decide, by decide⟩

/-- C1 (amended: as stated except that the guarantee "the timer is never
running while awaiting the first result" holds provided the user does
not press the play/pause toggle during the wait): (1) on every trace
from startup in which no play/pause toggle fires from a state that is
still awaiting the first result — toggles while streaming, including
before a later re-open, are allowed — the timer is stopped whenever the
first result is still awaited; (2) opening a non-empty source retains
frame 0 as `first_frame`, enters the waiting state with the timer
stopped, puts exactly frame 0 in the fresh queue, and displays no pair;
(3) the handler of a result received while waiting displays the
retained raw frame and the rendered result as one pair, leaves the
waiting state, and starts the timer; (4) the worker's first
`processed_frame` signal on a queue headed by frame `f` is the
rendering of `f` — so the first displayed pair corresponds to frame
index 0. -/
theorem startup_sync_amended :
    (∀ evs : List UIEvent, noToggleWhileWaiting initUI evs = true →
      uiInv (uiRun initUI evs)) ∧
    (∀ (st : UIState) (frames : List Frame) (reported : ℚ), uiInv st → frames ≠ [] →
      (uiOpen st frames reported).waiting_start = true ∧
      (uiOpen st frames reported).first_frame = frames.head? ∧
      (uiOpen st frames reported).timerActive = false ∧
      (uiOpen st frames reported).frame_queue = [QItem.frame (frames.headD [])] ∧
      (uiOpen st frames reported).displayedPairs = st.displayedPairs) ∧
    (∀ (st : UIState) (r : Frame), st.waiting_start = true →
      (uiProcessed st r).displayedPairs =
        st.displayedPairs ++ [(st.first_frame.getD [], r)] ∧
      (uiProcessed st r).waiting_start = false ∧
      (uiProcessed st r).timerActive = true) ∧
    (∀ (env : Env) (st : ThreadState) (f : Frame) (q : List QItem) (ts : List ℚ)
        (r : Frame) (dets : List Detection), st.running = true →
      env.infer (preprocess_frame env st f (ts.headD 0)).1 = .ok (r, dets) →
      firstProcessed (runLoop env st (QItem.frame f :: q) ts).signals = some r) := by
  refine ⟨?_, ?_, ?_, ?_⟩
  · intro evs htf
    exact uiInv_run evs initUI uiInv_init htf
  · intro st frames reported hinv hne
    cases frames with
    | nil => exact absurd rfl hne
    | cons f tl =>
      refine ⟨?_, ?_, ?_, ?_, ?_⟩
      · rw [uiOpen_waiting]
        simp
      · unfold uiOpen
        cases hc : st.orig_cam <;> simp [Cam.read, hc]
      · rw [uiOpen_timerActive]
        cases hc : st.orig_cam with
        | none =>
          simp only [hc, Option.isSome_none, Bool.false_eq_true, if_false]
          exact (hinv.2 hc).1
        | some c => simp
      · unfold uiOpen
        cases hc : st.orig_cam <;> simp [Cam.read, hc, pushDrop]
      · unfold uiOpen
        cases hc : st.orig_cam <;> simp [Cam.read, hc]
  · intro st r h
    unfold uiProcessed
    rw [if_pos h]
    exact ⟨rfl, rfl, rfl⟩
  · intro env st f q ts r dets hrun hinf
    rw [runLoop_frame env f q ts hrun]
    show firstProcessed ((processFrame env st f (ts.headD 0)).1 ++
      (runLoop env (processFrame env st f (ts.headD 0)).2 q ts.tail).signals) = some r
    have hps : (processFrame env st f (ts.headD 0)).1 =
        (preprocess_frame env st f (ts.headD 0)).2.1.map Signal.errorOccurred ++
          [Signal.detectionLog dets, Signal.processedFrame r] := by
      simp only [processFrame]
      rw [hinf]
    rw [hps, List.append_assoc, firstProcessed_errs]
    simp [firstProcessed]

/-- C1 witness: on the concrete trace open, first result, pause, resume
(both toggles while streaming, not during a wait), then re-open — which
satisfies the no-toggle-during-wait condition — the invariant holds
throughout; the open retains frame [5] with the timer off; the first
result displays exactly the pair ([5], [7]) and starts the timer; and
the worker's first rendered signal on a queue headed by [9] is [9]. -/
theorem startup_sync_amended_w :
    uiInv (uiRun initUI [UIEvent.openVid [[5], [6]] 30, UIEvent.processed [7],
      UIEvent.toggleBtn, UIEvent.toggleBtn, UIEvent.openVid [[8]] 25]) ∧
    (uiOpen initUI [[5]] 30).first_frame = some [5] ∧
    (uiOpen initUI [[5]] 30).timerActive = false ∧
    (uiProcessed (uiOpen initUI [[5]] 30) [7]).displayedPairs = [([5], [7])] ∧
    (uiProcessed (uiOpen initUI [[5]] 30) [7]).timerActive = true ∧
    firstProcessed (runLoop demoEnv (initThread [Method.none])
      [QItem.frame [9]] []).signals = some [9] := by
  obtain ⟨h1, h2, h3, h4⟩ := startup_sync_amended
  have ho := h2 initUI [[5]] 30 uiInv_init (by decide)
  have hp := h3 (uiOpen initUI [[5]] 30) [7] ho.1
  refine ⟨h1 [UIEvent.openVid [[5], [6]] 30, UIEvent.processed [7],
      UIEvent.toggleBtn, UIEvent.toggleBtn, UIEvent.openVid [[8]] 25] (by decide),
    ho.2.1, ho.2.2.1, ?_, hp.2.2, ?_⟩
  · rw [hp.1, ho.2.2.2.2]
    rw [ho.2.1]
    rfl
  · exact h4 demoEnv (initThread [Method.none]) [9] [] [] [9] [] rfl rfl

/-- C9 counterexample: the claim says the frame rate defaults to 30
whenever the reported rate is unavailable, zero, or negative; but
`get(CAP_PROP_FPS) or 30` replaces only a zero report, so opening a
source whose container reports -1 fps leaves fps = -1, not 30. -/
theorem fps_negative_cex :
    (uiOpen initUI [[0]] (-1)).fps = -1 ∧ ¬((uiOpen initUI [[0]] (-1)).fps = 30) :=
  ⟨by decide, by decide⟩

/-- C9 (amended: the tick period is derived from the source's reported
frame rate, and the frame rate defaults to 30 exactly when the reported
rate is zero — the value OpenCV returns when it is unavailable — while a
negative reported rate is used as-is): opening with report 0 sets
fps = 30; opening with any non-zero report r sets fps = r; and the timer
started by the first-result handler has period `int(1000 / fps)` ms. -/
theorem fps_default_amended :
    (∀ (st : UIState) (frames : List Frame), (uiOpen st frames 0).fps = 30) ∧
    (∀ (st : UIState) (frames : List Frame) (r : ℚ), r ≠ 0 →
      (uiOpen st frames r).fps = r) ∧
    (∀ (st : UIState) (r : Frame), st.waiting_start = true →
      (uiProcessed st r).timerPeriodMs = some (pyInt (1000 / st.fps))) := by
  refine ⟨?_, ?_, ?_⟩
  · intro st frames
    rw [uiOpen_fps]
    simp [fpsOf]
  · intro st frames r hr
    rw [uiOpen_fps]
    simp [fpsOf, hr]
  · intro st r h
    unfold uiProcessed
    rw [if_pos h, qdiv_eq_div]

/-- C9 witness: a zero report defaults to 30; a 24 fps report is kept;
the timer period set at handshake completion is `int(1000 / fps)`. -/
theorem fps_default_amended_w :
    (uiOpen initUI [[1]] 0).fps = 30 ∧
    (uiOpen initUI [[1]] 24).fps = 24 ∧
    (uiProcessed (uiOpen initUI [[5]] 30) [7]).timerPeriodMs =
      some (pyInt (1000 / (uiOpen initUI [[5]] 30).fps)) := by
  obtain ⟨ha, hb, hc⟩ := fps_default_amended
  exact ⟨ha initUI [[1]], hb initUI [[1]] 24 (by decide),
    hc (uiOpen initUI [[5]] 30) [7] (by decide)⟩

end RTSR
